import Mathlib

/-!
Verification development for a small asyncio chat server (`server.py`,
`structs.py`).  The server keeps an in-memory registry of connected users
(`Server.users`, a dict from username to stream writer), a SQLite table
`messages(message, sender, receiver, send_date)` and a table
`registrations(username UNIQUE, reg_date, count_messages)`.  We embed the
request-processing logic (`Server.process_data` and the send/storage helpers)
as pure Lean functions:

* stream writers are identified by natural-number handles;
* a write to a connection is recorded as an event `(handle, line)`;
* timestamps (`datetime.now(timezone(TZ))`) are modelled as naturals, and the
  textual timestamp inside a formatted line as `toString` of that natural;
* every storage helper carries a `fail : Bool` flag modelling the
  `try/except` in the corresponding static method: on `fail = true` the
  exception branch is taken, the error is logged and the default value
  (initialised before the `try`) is returned, the database unchanged;
* configuration values imported from `config` (`LIMIT_MESSAGES`,
  `LIMIT_SHOW_MESSAGES`) are fields of a `Config` parameter.
-/

/-- A decoded inbound request, mirroring the `RequestData` dataclass of
`structs.py`: `username`, `target` (one of `all`, `one_to_one`, `hello`,
`status`), `receiver` (default `""`), `message` (default `""`). -/
structure Request where
  username : String
  target : String
  receiver : String
  message : String
deriving DecidableEq, Repr

/-- A row of the `messages` table: `(message, sender, receiver, send_date)`. -/
structure MsgRec where
  message : String
  sender : String
  receiver : String
  send_date : Nat
deriving DecidableEq, Repr

/-- A row of the `registrations` table:
`(username, reg_date, count_messages)`. -/
structure UserRec where
  username : String
  reg_date : Nat
  count_messages : Nat
deriving DecidableEq, Repr

/-- A row returned by the backlog query of `__get_available_messages`:
`SELECT message, sender, send_date`. -/
structure Row where
  message : String
  sender : String
  send_date : Nat
deriving DecidableEq, Repr

/-- The server state: the in-memory session registry `self.users`
(an insertion-ordered dict, modelled as an association list from username to
writer handle) together with the two database tables. -/
structure ServerState where
  users : List (String × Nat)
  messages : List MsgRec
  registrations : List UserRec
deriving DecidableEq, Repr

/-- A write to an outbound connection: the writer handle and the line. -/
abbrev WriteEvent := Nat × String

/-- Configuration constants imported from `config`. -/
structure Config where
  LIMIT_MESSAGES : Nat
  LIMIT_SHOW_MESSAGES : Nat
deriving Repr

/-- The chat line written by `send_to_all` and `send_to_one`:
`f'{datetime.now(timezone(TZ))} {sender}: {message}\n'`. -/
def formatMsg (now : Nat) (sender message : String) : String :=
  toString now ++ " " ++ sender ++ ": " ++ message ++ "\n"

/-- The rate-limit warning written by `send_limit_warning`. -/
def limitWarningLine : String :=
  "You have reached the limit for sending messages to the general chat\n"

/-- The join announcement line written by `send_hello`. -/
def helloLine (sender : String) : String :=
  "New guest in the chat! - " ++ sender ++ "\n"

/-- `Server.send_to_all`: iterate over `self.users.values()` and write the
formatted line to every writer `w` with `w != self_writer`. -/
def send_to_all (users : List (String × Nat)) (selfWriter : Nat)
    (sender message : String) (now : Nat) : List WriteEvent :=
  (users.filter (fun p => p.2 ≠ selfWriter)).map
    (fun p => (p.2, formatMsg now sender message))

/-- `Server.send_to_one`: iterate over `self.users.items()` and write the
formatted line to every writer whose `username == receiver`. -/
def send_to_one (users : List (String × Nat))
    (sender message receiver : String) (now : Nat) : List WriteEvent :=
  (users.filter (fun p => p.1 = receiver)).map
    (fun p => (p.2, formatMsg now sender message))

/-- `Server.send_hello`: write the join announcement to every writer `w`
in `self.users.values()` with `w != self_writer`. -/
def send_hello (users : List (String × Nat)) (selfWriter : Nat)
    (sender : String) : List WriteEvent :=
  (users.filter (fun p => p.2 ≠ selfWriter)).map
    (fun p => (p.2, helloLine sender))

/-- `self.users[user] = writer`: a Python dict assignment overwrites the
value in place when the key exists (keeping its insertion position) and
appends a new entry otherwise. -/
def registerUser (users : List (String × Nat)) (name : String) (w : Nat) :
    List (String × Nat) :=
  if users.any (fun p => p.1 = name) then
    users.map (fun p => if p.1 = name then (name, w) else p)
  else
    users ++ [(name, w)]

/-- `Server.__create_record_in_db`: normalise `receiver = receiver or 'all'`,
then `INSERT INTO messages(message, sender, receiver, send_date)`.  On a
storage exception the error is logged and nothing is inserted. -/
def createRecordInDb (fail : Bool) (msgs : List MsgRec)
    (message sender receiver : String) (now : Nat) : List MsgRec :=
  let receiver := if receiver = "" then "all" else receiver
  if fail then msgs
  else msgs ++ [⟨message, sender, receiver, now⟩]

/-- `Server.__get_user`: `SELECT username, reg_date, count_messages FROM
registrations WHERE username = ?` with `fetchone()`.  `user` is initialised
to `None` before the `try`, so a storage exception yields `None`. -/
def getUser (fail : Bool) (regs : List UserRec) (username : String) :
    Option UserRec :=
  if fail then none
  else regs.find? (fun r => r.username = username)

/-- `Server.__create_user_db_record`: `INSERT INTO registrations(username,
reg_date) VALUES (?, now)`.  On a storage exception (including a UNIQUE
violation for a duplicate username) the error is logged and nothing is
inserted.  Modelled from the spec: the schema of `registrations` is not in
the source tree; per the spec, `username` is UNIQUE and `count_messages`
defaults to zero, so a fresh insert carries count 0 and an insert for an
existing username fails silently. -/
def createUserDbRecord (fail : Bool) (regs : List UserRec)
    (user : String) (now : Nat) : List UserRec :=
  if fail then regs
  else if regs.any (fun r => r.username = user) then regs
  else regs ++ [⟨user, now, 0⟩]

/-- `Server.__append_count_message`: `UPDATE registrations SET
count_messages = ? WHERE username = ?`.  On a storage exception nothing is
committed. -/
def appendCountDb (fail : Bool) (regs : List UserRec)
    (username : String) (count : Nat) : List UserRec :=
  if fail then regs
  else regs.map (fun r =>
    if r.username = username then
      { r with count_messages := count }
    else r)

/-- `Server.__reset_limits`: `UPDATE registrations SET count_messages = 0`
(no WHERE clause).  On a storage exception nothing is committed. -/
def resetLimitsDb (fail : Bool) (regs : List UserRec) : List UserRec :=
  if fail then regs
  else regs.map (fun r => { r with count_messages := 0 })

/-- `Server.__delete_old_messages`: `DELETE FROM messages WHERE
send_date < deadline`.  On a storage exception nothing is committed. -/
def deleteOldMessagesDb (fail : Bool) (msgs : List MsgRec)
    (deadline : Nat) : List MsgRec :=
  if fail then msgs
  else msgs.filter (fun m => ¬ m.send_date < deadline)

/-- `receiver in ('all', ?)` of the backlog query. -/
def qualifies (receiver : String) (m : MsgRec) : Bool :=
  m.receiver = "all" || m.receiver = receiver

/-- Project a `messages` row onto the three selected columns. -/
def toRow (m : MsgRec) : Row := ⟨m.message, m.sender, m.send_date⟩

/-- The `ORDER BY send_date` comparison on result rows. -/
def rowLE (a b : Row) : Prop := a.send_date ≤ b.send_date

instance : DecidableRel rowLE := fun a b => Nat.decLe a.send_date b.send_date

instance : IsTotal Row rowLE := ⟨fun a b => Nat.le_total a.send_date b.send_date⟩

instance : IsTrans Row rowLE := ⟨fun _ _ _ h1 h2 => Nat.le_trans h1 h2⟩

/-- `ORDER BY send_date` (ascending), as a stable insertion sort. -/
def sortBySendDate (rows : List Row) : List Row :=
  rows.insertionSort rowLE

/-- `Server.__get_available_messages`: the backlog query

`(SELECT message, sender, send_date FROM messages WHERE receiver in
('all', ?) AND send_date >= ? ORDER BY send_date)`
`UNION`
`(SELECT message, sender, send_date FROM messages WHERE receiver in
('all', ?) AND send_date <= ? ORDER BY send_date LIMIT K)`
`ORDER BY send_date`

with `K = LIMIT_SHOW_MESSAGES`.  The second branch sorts ascending by
`send_date` and then applies `LIMIT K`, so it keeps the K earliest
qualifying rows at or before `reg_date`.  `UNION` removes duplicate rows.
`messages` is initialised to `[]` before the `try`, so a storage exception
yields the empty list. -/
def getAvailableMessages (fail : Bool) (K : Nat) (msgs : List MsgRec)
    (receiver : String) (regDate : Nat) : List Row :=
  if fail then []
  else
    let afterRows := sortBySendDate
      ((msgs.filter (fun m => qualifies receiver m && regDate ≤ m.send_date)).map toRow)
    let beforeRows := (sortBySendDate
      ((msgs.filter (fun m => qualifies receiver m && m.send_date ≤ regDate)).map toRow)).take K
    sortBySendDate (afterRows ++ beforeRows).dedup

/-- `Server.send_available_messages`: format each backlog row `m` as
`f'{m[2]} {m[1]}: {m[0]}\n'` and write it to the requester. -/
def backlogWrites (writer : Nat) (rows : List Row) : List WriteEvent :=
  rows.map (fun r =>
    (writer, toString r.send_date ++ " " ++ r.sender ++ ": " ++ r.message ++ "\n"))

/-- `Server.process_data` on one decoded request: store the message when
`target != 'hello'`; resolve the user record (creating it, with
`reg_date = now` and count 0, when absent); then dispatch on the target.
Returns the new server state and the sequence of connection writes, in
program order. -/
def process_data (fail : Bool) (cfg : Config) (req : Request)
    (writer : Nat) (now : Nat) (st : ServerState) :
    ServerState × List WriteEvent :=
  let user := req.username
  let msgs1 :=
    if req.target ≠ "hello" then
      createRecordInDb fail st.messages req.message user req.receiver now
    else st.messages
  let resolved : List UserRec × Nat × Nat :=
    match getUser fail st.registrations user with
    | none => (createUserDbRecord fail st.registrations user now, now, 0)
    | some u => (st.registrations, u.reg_date, u.count_messages)
  let regs1 := resolved.1
  let regDate := resolved.2.1
  let countMessages := resolved.2.2
  if req.target = "hello" then
    let backlog := getAvailableMessages fail cfg.LIMIT_SHOW_MESSAGES msgs1 user regDate
    let users1 := registerUser st.users user writer
    (⟨users1, msgs1, regs1⟩,
     backlogWrites writer backlog ++ send_hello users1 writer user)
  else if req.target = "all" then
    if cfg.LIMIT_MESSAGES ≤ countMessages then
      (⟨st.users, msgs1, regs1⟩, [(writer, limitWarningLine)])
    else
      (⟨st.users, msgs1, appendCountDb fail regs1 user (countMessages + 1)⟩,
       send_to_all st.users writer user req.message now)
  else if req.target = "one_to_one" then
    (⟨st.users, msgs1, regs1⟩, send_to_one st.users user req.message req.receiver now)
  else
    (⟨st.users, msgs1, regs1⟩, [])

/-- The raw bytes returned by one `reader.read(1024)` call in
`client_connected`: empty (peer closed), bytes that fail UTF-8 or JSON
decoding, or bytes decoding to a request. -/
inductive RawData where
  | empty : RawData
  | malformed : RawData
  | valid : Request → RawData
deriving DecidableEq, Repr

/-- `json.loads(data.decode())`: an empty byte string is never a JSON
document, so decoding it raises, as does any malformed payload. -/
def decodeData : RawData → Option Request
  | RawData.empty => none
  | RawData.malformed => none
  | RawData.valid r => some r

/-- One iteration of the `while True` loop of `Server.client_connected`:
`data = await reader.read(1024)`, then `await self.process_data(data,
writer)`, then `if not data: break`.  When `json.loads` raises inside
`process_data`, the exception propagates out of the coroutine
(`Except.error`); otherwise the iteration returns the new state, the writes
and whether the loop continues (`data` nonempty). -/
def clientIteration (fail : Bool) (cfg : Config) (st : ServerState)
    (raw : RawData) (writer : Nat) (now : Nat) :
    Except Unit (ServerState × List WriteEvent × Bool) :=
  match decodeData raw with
  | none => Except.error ()
  | some r =>
    let res := process_data fail cfg r writer now st
    Except.ok (res.1, res.2, raw ≠ RawData.empty)

/-- Whether this iteration of `client_connected` reaches the
`writer.close()` after the loop: only when `process_data` returns normally
and the loop then breaks on empty data.  An exception skips the close. -/
def reachesClose (fail : Bool) (cfg : Config) (st : ServerState)
    (raw : RawData) (writer : Nat) (now : Nat) : Bool :=
  match clientIteration fail cfg st raw writer now with
  | Except.error _ => false
  | Except.ok (_, _, cont) => ! cont

/-- The backlog computed in the `hello` branch of `process_data`: the
available messages for the requesting user, against the registration date
read from the user's record (or `now` for a fresh user). -/
def helloBacklog (cfg : Config) (req : Request) (now : Nat)
    (st : ServerState) : List Row :=
  getAvailableMessages false cfg.LIMIT_SHOW_MESSAGES st.messages req.username
    (match getUser false st.registrations req.username with
     | none => now
     | some u => u.reg_date)

/-- `sortBySendDate` sorts ascending by `send_date`. -/
theorem sorted_sortBySendDate (rows : List Row) :
    List.Sorted rowLE (sortBySendDate rows) :=
  List.sorted_insertionSort rowLE rows

/-- Updating the count of `name` via `appendCountDb` updates exactly the
record that `getUser` finds. -/
theorem getUser_appendCountDb (regs : List UserRec) (name : String) (c : Nat) :
    getUser false (appendCountDb false regs name c) name =
      (getUser false regs name).map (fun r => { r with count_messages := c }) := by
  simp only [getUser, appendCountDb, Bool.false_eq_true, if_false]
  induction regs with
  | nil => rfl
  | cons r rs ih =>
    by_cases h : r.username = name
    · simp [List.find?_cons, h]
    · simp [List.find?_cons, h, ih]

/-- C1: when a stored user's message-count has reached `LIMIT_MESSAGES`, an
`all` request produces exactly one write — the rate-limit warning to the
requester's own connection — no other session receives anything,
`append_count` is not called (the registrations table, hence the stored
count, is unchanged), and the session registry is unchanged. -/
theorem c1_rate_limited_all (cfg : Config) (req : Request) (writer now : Nat)
    (st : ServerState) (u : UserRec)
    (ht : req.target = "all")
    (hu : getUser false st.registrations req.username = some u)
    (hlim : cfg.LIMIT_MESSAGES ≤ u.count_messages) :
    (process_data false cfg req writer now st).2 = [(writer, limitWarningLine)] ∧
    (process_data false cfg req writer now st).1.registrations = st.registrations ∧
    (process_data false cfg req writer now st).1.users = st.users := by
  refine ⟨?_, ?_, ?_⟩ <;> simp [process_data, ht, hu, hlim]

theorem c1_rate_limited_all_witness :
    (process_data false ⟨2, 5⟩ ⟨"alice", "all", "", "hi"⟩ 7 100
        ⟨[("alice", 7), ("bob", 8)], [], [⟨"alice", 0, 2⟩]⟩).2 =
      [(7, limitWarningLine)] ∧
    (process_data false ⟨2, 5⟩ ⟨"alice", "all", "", "hi"⟩ 7 100
        ⟨[("alice", 7), ("bob", 8)], [], [⟨"alice", 0, 2⟩]⟩).1.registrations =
      [⟨"alice", 0, 2⟩] ∧
    (process_data false ⟨2, 5⟩ ⟨"alice", "all", "", "hi"⟩ 7 100
        ⟨[("alice", 7), ("bob", 8)], [], [⟨"alice", 0, 2⟩]⟩).1.users =
      [("alice", 7), ("bob", 8)] :=
  c1_rate_limited_all ⟨2, 5⟩ ⟨"alice", "all", "", "hi"⟩ 7 100
    ⟨[("alice", 7), ("bob", 8)], [], [⟨"alice", 0, 2⟩]⟩ ⟨"alice", 0, 2⟩
    rfl (by decide) (by decide)

/-- C2: when a stored user's message-count is below `LIMIT_MESSAGES`, an
`all` request writes the formatted line to exactly the registered sessions
whose writer handle differs from the requester's own, the requester's own
connection receives nothing, and afterwards the user's stored count equals
the count that was read plus one. -/
theorem c2_broadcast_below_limit (cfg : Config) (req : Request)
    (writer now : Nat) (st : ServerState) (u : UserRec)
    (ht : req.target = "all")
    (hu : getUser false st.registrations req.username = some u)
    (hlim : u.count_messages < cfg.LIMIT_MESSAGES) :
    (process_data false cfg req writer now st).2 =
      (st.users.filter (fun p => p.2 ≠ writer)).map
        (fun p => (p.2, formatMsg now req.username req.message)) ∧
    (∀ e ∈ (process_data false cfg req writer now st).2, e.1 ≠ writer) ∧
    getUser false (process_data false cfg req writer now st).1.registrations
        req.username =
      some { u with count_messages := u.count_messages + 1 } := by
  have hnot : ¬ cfg.LIMIT_MESSAGES ≤ u.count_messages := Nat.not_le.mpr hlim
  have hw : (process_data false cfg req writer now st).2 =
      (st.users.filter (fun p => p.2 ≠ writer)).map
        (fun p => (p.2, formatMsg now req.username req.message)) := by
    simp [process_data, ht, hu, hnot, send_to_all]
  have hr : (process_data false cfg req writer now st).1.registrations =
      appendCountDb false st.registrations req.username (u.count_messages + 1) := by
    simp [process_data, ht, hu, hnot]
  refine ⟨hw, ?_, ?_⟩
  · intro e he
    rw [hw] at he
    obtain ⟨p, hp, rfl⟩ := List.mem_map.mp he
    exact of_decide_eq_true (List.mem_filter.mp hp).2
  · rw [hr, getUser_appendCountDb, hu]
    rfl

theorem c2_broadcast_below_limit_witness :
    (process_data false ⟨2, 5⟩ ⟨"alice", "all", "", "hi"⟩ 7 100
        ⟨[("alice", 7), ("bob", 8)], [], [⟨"alice", 0, 1⟩]⟩).2 =
      [(8, "100 alice: hi\n")] ∧
    getUser false
        (process_data false ⟨2, 5⟩ ⟨"alice", "all", "", "hi"⟩ 7 100
          ⟨[("alice", 7), ("bob", 8)], [], [⟨"alice", 0, 1⟩]⟩).1.registrations
        "alice" =
      some ⟨"alice", 0, 2⟩ := by
  have h := c2_broadcast_below_limit ⟨2, 5⟩ ⟨"alice", "all", "", "hi"⟩ 7 100
    ⟨[("alice", 7), ("bob", 8)], [], [⟨"alice", 0, 1⟩]⟩ ⟨"alice", 0, 1⟩
    rfl (by decide) (by decide)
  exact ⟨h.1.trans (by decide), h.2.2.trans (by decide)⟩

/-- C9: every storage operation, when its backing query fails, returns the
default initialised before the `try` — `None` for the user lookup, the
empty list for the backlog, and no change to either table for the writes —
instead of propagating an exception. -/
theorem c9_storage_failure_defaults (msgs : List MsgRec) (regs : List UserRec)
    (message sender receiver username : String)
    (now count deadline K regDate : Nat) :
    getUser true regs username = none ∧
    getAvailableMessages true K msgs receiver regDate = [] ∧
    createRecordInDb true msgs message sender receiver now = msgs ∧
    createUserDbRecord true regs username now = regs ∧
    appendCountDb true regs username count = regs ∧
    resetLimitsDb true regs = regs ∧
    deleteOldMessagesDb true msgs deadline = msgs :=
  ⟨rfl, rfl, rfl, rfl, rfl, rfl, rfl⟩

/-- C10: a `one_to_one` request whose receiver equals the sender's own
username delivers the formatted line to the sender's own registered
session — `send_to_one` matches on the username only and, unlike
`send_to_all`, does not exclude the requesting connection. -/
theorem c10_one_to_one_self_delivery (cfg : Config) (req : Request)
    (writer now : Nat) (st : ServerState) (p : String × Nat)
    (ht : req.target = "one_to_one") (hr : req.receiver = req.username)
    (hp : p ∈ st.users) (hname : p.1 = req.username) :
    (p.2, formatMsg now req.username req.message) ∈
      (process_data false cfg req writer now st).2 := by
  have hwrites : (process_data false cfg req writer now st).2 =
      send_to_one st.users req.username req.message req.receiver now := by
    cases hgu : getUser false st.registrations req.username <;>
      simp [process_data, ht, hgu]
  rw [hwrites, send_to_one, hr]
  exact List.mem_map.mpr ⟨p, List.mem_filter.mpr ⟨hp, by simp [hname]⟩, rfl⟩

theorem c10_one_to_one_self_delivery_witness :
    ((7 : Nat), formatMsg 0 "alice" "yo") ∈
      (process_data false ⟨2, 5⟩ ⟨"alice", "one_to_one", "alice", "yo"⟩ 7 0
        ⟨[("alice", 7)], [], [⟨"alice", 0, 0⟩]⟩).2 :=
  c10_one_to_one_self_delivery ⟨2, 5⟩ ⟨"alice", "one_to_one", "alice", "yo"⟩
    7 0 ⟨[("alice", 7)], [], [⟨"alice", 0, 0⟩]⟩ ("alice", 7)
    rfl rfl (by decide) rfl

/-- C4: a `hello` request registers (or overwrites) the session mapping for
the user, and its writes are, in program order: first the backlog lines,
each sent to the requester's own connection, then the join announcement
`New guest in the chat! - <username>` sent to every registered session
whose writer handle differs from the requester's own (and to no session
whose handle is the requester's). -/
theorem c4_hello_dispatch (cfg : Config) (req : Request) (writer now : Nat)
    (st : ServerState) (ht : req.target = "hello") :
    (process_data false cfg req writer now st).1.users =
      registerUser st.users req.username writer ∧
    (process_data false cfg req writer now st).2 =
      backlogWrites writer (helloBacklog cfg req now st) ++
        send_hello (registerUser st.users req.username writer) writer
          req.username ∧
    (∀ e ∈ backlogWrites writer (helloBacklog cfg req now st), e.1 = writer) ∧
    (∀ p ∈ registerUser st.users req.username writer, p.2 ≠ writer →
      (p.2, helloLine req.username) ∈
        (process_data false cfg req writer now st).2) ∧
    (∀ e ∈ send_hello (registerUser st.users req.username writer) writer
        req.username, e.1 ≠ writer) := by
  have husers : (process_data false cfg req writer now st).1.users =
      registerUser st.users req.username writer := by
    cases hgu : getUser false st.registrations req.username <;>
      simp [process_data, ht, hgu]
  have hwrites : (process_data false cfg req writer now st).2 =
      backlogWrites writer (helloBacklog cfg req now st) ++
        send_hello (registerUser st.users req.username writer) writer
          req.username := by
    cases hgu : getUser false st.registrations req.username <;>
      simp [process_data, helloBacklog, ht, hgu]
  refine ⟨husers, hwrites, ?_, ?_, ?_⟩
  · intro e he
    obtain ⟨r, _, rfl⟩ := List.mem_map.mp he
    rfl
  · intro p hp hpw
    rw [hwrites]
    refine List.mem_append.mpr (Or.inr ?_)
    exact List.mem_map.mpr ⟨p, List.mem_filter.mpr ⟨hp, by simp [hpw]⟩, rfl⟩
  · intro e he
    obtain ⟨q, hq, rfl⟩ := List.mem_map.mp he
    exact of_decide_eq_true (List.mem_filter.mp hq).2

theorem c4_hello_dispatch_witness :
    (process_data false ⟨2, 1⟩ ⟨"carol", "hello", "", ""⟩ 9 100
        ⟨[("alice", 7)], [⟨"t", "alice", "all", 50⟩], [⟨"alice", 0, 1⟩]⟩).1.users =
      [("alice", 7), ("carol", 9)] ∧
    (process_data false ⟨2, 1⟩ ⟨"carol", "hello", "", ""⟩ 9 100
        ⟨[("alice", 7)], [⟨"t", "alice", "all", 50⟩], [⟨"alice", 0, 1⟩]⟩).2 =
      [(9, "50 alice: t\n"), (7, "New guest in the chat! - carol\n")] := by
  have h := c4_hello_dispatch ⟨2, 1⟩ ⟨"carol", "hello", "", ""⟩ 9 100
    ⟨[("alice", 7)], [⟨"t", "alice", "all", 50⟩], [⟨"alice", 0, 1⟩]⟩ rfl
  exact ⟨h.1.trans (by decide), h.2.1.trans (by decide)⟩

/-- In a list with pairwise-distinct keys (the Python dict invariant), the
entries whose key matches are exactly what `find?` returns. -/
theorem filter_key_eq_find? (users : List (String × Nat)) (k : String)
    (h : users.Pairwise (fun a b => a.1 ≠ b.1)) :
    users.filter (fun p => p.1 = k) =
      (users.find? (fun p => p.1 = k)).toList := by
  induction users with
  | nil => rfl
  | cons p ps ih =>
    obtain ⟨hp, hps⟩ := List.pairwise_cons.mp h
    by_cases hk : p.1 = k
    · have hnil : ps.filter (fun q => q.1 = k) = [] := by
        refine List.filter_eq_nil_iff.mpr ?_
        intro q hq
        simp only [decide_eq_true_eq]
        intro hqk
        exact hp q hq (hk.trans hqk.symm)
      simp [List.filter_cons, List.find?_cons, hk, hnil]
    · simp [List.filter_cons, List.find?_cons, hk, ih hps]

/-- C5: a `one_to_one` request writes the formatted message to exactly the
session found for the receiver in the registry (one write when the
receiver is registered), and writes nothing at all — in particular nothing
to the sender's connection — when the receiver is not registered. -/
theorem c5_one_to_one_delivery (cfg : Config) (req : Request)
    (writer now : Nat) (st : ServerState)
    (ht : req.target = "one_to_one")
    (hkeys : st.users.Pairwise (fun a b => a.1 ≠ b.1)) :
    (process_data false cfg req writer now st).2 =
      ((st.users.find? (fun p => p.1 = req.receiver)).toList).map
        (fun p => (p.2, formatMsg now req.username req.message)) ∧
    (∀ p, st.users.find? (fun q => q.1 = req.receiver) = some p →
      (process_data false cfg req writer now st).2 =
        [(p.2, formatMsg now req.username req.message)]) ∧
    (st.users.find? (fun q => q.1 = req.receiver) = none →
      (process_data false cfg req writer now st).2 = []) := by
  have hwrites : (process_data false cfg req writer now st).2 =
      send_to_one st.users req.username req.message req.receiver now := by
    cases hgu : getUser false st.registrations req.username <;>
      simp [process_data, ht, hgu]
  have hmain : (process_data false cfg req writer now st).2 =
      ((st.users.find? (fun p => p.1 = req.receiver)).toList).map
        (fun p => (p.2, formatMsg now req.username req.message)) := by
    rw [hwrites, send_to_one, filter_key_eq_find? st.users req.receiver hkeys]
  refine ⟨hmain, ?_, ?_⟩
  · intro p hfind
    rw [hmain, hfind]
    rfl
  · intro hfind
    rw [hmain, hfind]
    rfl

theorem c5_one_to_one_delivery_witness :
    (process_data false ⟨2, 5⟩ ⟨"alice", "one_to_one", "bob", "hi"⟩ 7 50
        ⟨[("alice", 7), ("bob", 8)], [], [⟨"alice", 0, 0⟩]⟩).2 =
      [(8, "50 alice: hi\n")] ∧
    (process_data false ⟨2, 5⟩ ⟨"alice", "one_to_one", "carol", "hi"⟩ 7 50
        ⟨[("alice", 7), ("bob", 8)], [], [⟨"alice", 0, 0⟩]⟩).2 = [] := by
  have h1 := c5_one_to_one_delivery ⟨2, 5⟩ ⟨"alice", "one_to_one", "bob", "hi"⟩
    7 50 ⟨[("alice", 7), ("bob", 8)], [], [⟨"alice", 0, 0⟩]⟩ rfl (by decide)
  have h2 := c5_one_to_one_delivery ⟨2, 5⟩
    ⟨"alice", "one_to_one", "carol", "hi"⟩
    7 50 ⟨[("alice", 7), ("bob", 8)], [], [⟨"alice", 0, 0⟩]⟩ rfl (by decide)
  exact ⟨h1.1.trans (by decide), h2.1.trans (by decide)⟩

/-- C6: every request whose target is not `hello` — `all` (rate-limited or
not), `one_to_one`, `status`, whether or not the user record exists —
appends one message record with the request's text and sender, the
receiver normalised from the empty string to `'all'`, and the current
timestamp. -/
theorem c6_store_all_non_hello (cfg : Config) (req : Request)
    (writer now : Nat) (st : ServerState)
    (ht : req.target ≠ "hello") :
    (process_data false cfg req writer now st).1.messages =
      st.messages ++
        [⟨req.message, req.username,
          if req.receiver = "" then "all" else req.receiver, now⟩] := by
  cases hgu : getUser false st.registrations req.username
  all_goals
    simp only [process_data, hgu, if_pos ht]
    split
    · next h => exact absurd h ht
    · split
      · split <;> simp [createRecordInDb]
      · split <;> simp [createRecordInDb]

theorem c6_store_all_non_hello_witness :
    (process_data false ⟨2, 5⟩ ⟨"dave", "status", "", "x"⟩ 4 5
        ⟨[], [], []⟩).1.messages =
      [⟨"x", "dave", "all", 5⟩] := by
  have h := c6_store_all_non_hello ⟨2, 5⟩ ⟨"dave", "status", "", "x"⟩ 4 5
    ⟨[], [], []⟩ (by decide)
  exact h.trans (by decide)

/-- C7: a `hello` from a user with no stored record creates exactly one
user record, with registration timestamp `now` and message-count zero; a
`hello` from a user whose record exists leaves the registrations table
unchanged (`fetch_user` is consulted first, and the create runs only when
it returns nothing). -/
theorem c7_hello_registration (cfg : Config) (req : Request)
    (writer now : Nat) (st : ServerState) (ht : req.target = "hello") :
    (getUser false st.registrations req.username = none →
      (process_data false cfg req writer now st).1.registrations =
        st.registrations ++ [⟨req.username, now, 0⟩]) ∧
    (∀ u, getUser false st.registrations req.username = some u →
      (process_data false cfg req writer now st).1.registrations =
        st.registrations) := by
  constructor
  · intro hgu
    have hfind : st.registrations.find?
        (fun r => r.username = req.username) = none := by
      simpa [getUser] using hgu
    have hnone : st.registrations.any
        (fun r => r.username = req.username) = false := by
      refine List.any_eq_false.mpr ?_
      intro r hr
      simpa using List.find?_eq_none.mp hfind r hr
    simp [process_data, ht, hgu, createUserDbRecord, hnone]
  · intro u hgu
    simp [process_data, ht, hgu]

theorem c7_hello_registration_witness :
    (process_data false ⟨2, 5⟩ ⟨"carol", "hello", "", ""⟩ 9 100
        ⟨[], [], []⟩).1.registrations = [⟨"carol", 100, 0⟩] ∧
    (process_data false ⟨2, 5⟩ ⟨"alice", "hello", "", ""⟩ 9 100
        ⟨[], [], [⟨"alice", 3, 1⟩]⟩).1.registrations = [⟨"alice", 3, 1⟩] := by
  have h1 := (c7_hello_registration ⟨2, 5⟩ ⟨"carol", "hello", "", ""⟩ 9 100
    ⟨[], [], []⟩ rfl).1 (by decide)
  have h2 := (c7_hello_registration ⟨2, 5⟩ ⟨"alice", "hello", "", ""⟩ 9 100
    ⟨[], [], [⟨"alice", 3, 1⟩]⟩ rfl).2 ⟨"alice", 3, 1⟩ (by decide)
  exact ⟨h1.trans (by decide), h2⟩

/-- C8: no iteration of the `client_connected` read loop ever reaches the
`writer.close()` that follows the loop: the close is reached only when
`process_data` returns normally on empty data, but `json.loads` on empty
bytes raises, so an empty read (like a decode failure) terminates the
coroutine by exception without closing the connection handle. -/
theorem c8_close_never_reached (fail : Bool) (cfg : Config)
    (st : ServerState) (raw : RawData) (writer now : Nat) :
    reachesClose fail cfg st raw writer now = false := by
  cases raw <;> simp [reachesClose, clientIteration, decodeData]

/-- C3 counterexample: with display limit K = 1, a user registered at time
3, and two qualifying broadcast messages sent at times 1 and 2 (both
before registration), the backlog is exactly the EARLIEST message (time 1);
the trailing qualifying message before registration (time 2) is absent, so
the backlog does not comprise the trailing K qualifying messages sent
before the registration timestamp, contrary to the claim. -/
theorem c3_counterexample :
    getAvailableMessages false 1
        [⟨"m1", "s", "all", 1⟩, ⟨"m2", "s", "all", 2⟩] "u" 3 =
      [⟨"m1", "s", 1⟩] ∧
    (⟨"m2", "s", 2⟩ : Row) ∉
      getAvailableMessages false 1
        [⟨"m1", "s", "all", 1⟩, ⟨"m2", "s", "all", 2⟩] "u" 3 := by
  decide

/-- C3 (amended): the backlog contains only rows of qualifying messages
(receiver `'all'` or the user's username), is sorted ascending by send
timestamp, comprises all qualifying messages with timestamp at or after
the registration timestamp, together with the K EARLIEST qualifying
messages sent at or before it (K = `LIMIT_SHOW_MESSAGES`; the SQL `LIMIT`
applies to the ascending-ordered subquery, so it keeps the earliest, not
the trailing, pre-registration messages). -/
theorem c3_backlog_amended (K : Nat) (msgs : List MsgRec) (receiver : String)
    (regDate : Nat) :
    List.Sorted rowLE (getAvailableMessages false K msgs receiver regDate) ∧
    (∀ r ∈ getAvailableMessages false K msgs receiver regDate,
      ∃ m ∈ msgs, qualifies receiver m = true ∧ toRow m = r) ∧
    (∀ m ∈ msgs, qualifies receiver m = true → regDate ≤ m.send_date →
      toRow m ∈ getAvailableMessages false K msgs receiver regDate) ∧
    (∀ r ∈ (sortBySendDate ((msgs.filter
        (fun m => qualifies receiver m && m.send_date ≤ regDate)).map
          toRow)).take K,
      r ∈ getAvailableMessages false K msgs receiver regDate) := by
  have hdef : getAvailableMessages false K msgs receiver regDate =
      sortBySendDate (((sortBySendDate ((msgs.filter
          (fun m => qualifies receiver m && regDate ≤ m.send_date)).map
            toRow)) ++
        (sortBySendDate ((msgs.filter
          (fun m => qualifies receiver m && m.send_date ≤ regDate)).map
            toRow)).take K).dedup) := rfl
  refine ⟨?_, ?_, ?_, ?_⟩
  · rw [hdef]
    exact sorted_sortBySendDate _
  · intro r hr
    simp only [hdef, sortBySendDate, List.mem_insertionSort, List.mem_dedup,
      List.mem_append] at hr
    rcases hr with hr | hr
    · obtain ⟨m, hm, rfl⟩ := List.mem_map.mp hr
      have hf := (List.mem_filter.mp hm).2
      simp only [Bool.and_eq_true] at hf
      exact ⟨m, (List.mem_filter.mp hm).1, hf.1, rfl⟩
    · have hr' := List.take_subset _ _ hr
      rw [List.mem_insertionSort] at hr'
      obtain ⟨m, hm, rfl⟩ := List.mem_map.mp hr'
      have hf := (List.mem_filter.mp hm).2
      simp only [Bool.and_eq_true] at hf
      exact ⟨m, (List.mem_filter.mp hm).1, hf.1, rfl⟩
  · intro m hm hq hd
    simp only [hdef, sortBySendDate, List.mem_insertionSort, List.mem_dedup,
      List.mem_append]
    left
    exact List.mem_map.mpr ⟨m, List.mem_filter.mpr ⟨hm, by simp [hq, hd]⟩, rfl⟩
  · intro r hr
    simp only [sortBySendDate] at hr
    simp only [hdef, sortBySendDate, List.mem_insertionSort, List.mem_dedup,
      List.mem_append]
    right
    exact hr

theorem c3_backlog_amended_witness :
    (⟨"m3", "s", 5⟩ : Row) ∈ getAvailableMessages false 1
      [⟨"m1", "s", "all", 1⟩, ⟨"m2", "s", "all", 2⟩, ⟨"m3", "s", "all", 5⟩]
      "u" 3 :=
  (c3_backlog_amended 1
    [⟨"m1", "s", "all", 1⟩, ⟨"m2", "s", "all", 2⟩, ⟨"m3", "s", "all", 5⟩]
    "u" 3).2.2.1 ⟨"m3", "s", "all", 5⟩ (by decide) (by decide) (by decide)
